import Mathlib

/-!
Verification of the anytask scraper core (HTTP session client, HTML parsers,
session persistence, and the TUI cache layer) against its natural-language
specification.  The Python sources are shallowly embedded: pure parsing
helpers become Lean functions over a small DOM tree, the stateful client
becomes explicit state passing with a network oracle, and fallible code
returns `Except`/`Option`.
-/

namespace Anytask

/-! ## String and character helpers

Python string/bytes operations used by the sources, modelled over `List Char`
(the pages handled here are ASCII-relevant for every check the code makes).
-/

/-- Whitespace as recognised by Python `str.strip` / `bytes.strip`:
space, tab, newline, carriage return, vertical tab, form feed. -/
def isPySpace (c : Char) : Bool :=
  c = ' ' || c = '\t' || c = '\n' || c = '\r' || c = Char.ofNat 11 || c = Char.ofNat 12

/-- Left strip (Python `lstrip`). -/
def listLStrip (cs : List Char) : List Char :=
  cs.dropWhile isPySpace

/-- Right strip (Python `rstrip`). -/
def listRStrip (cs : List Char) : List Char :=
  (cs.reverse.dropWhile isPySpace).reverse

/-- Python `strip`: drop leading and trailing whitespace. -/
def listStrip (cs : List Char) : List Char :=
  listRStrip (listLStrip cs)

/-- String-level `strip`. -/
def strStrip (s : String) : String :=
  String.mk (listStrip s.data)

/-- String-level `lstrip`. -/
def strLStrip (s : String) : String :=
  String.mk (listLStrip s.data)

/-- Python `str.lower` / `bytes.lower` (ASCII case fold). -/
def strLower (s : String) : String :=
  String.mk (s.data.map Char.toLower)

/-- Replace every non-overlapping occurrence of a non-empty pattern, left
to right (Python `str.replace`).  `fuel` bounds the scan; the input length
suffices since every step consumes at least one character. -/
def replaceListAux (pat sub : List Char) : Nat → List Char → List Char
  | 0, cs => cs
  | _, [] => []
  | fuel + 1, c :: rest =>
    if pat.isPrefixOf (c :: rest) then
      sub ++ replaceListAux pat sub fuel ((c :: rest).drop pat.length)
    else
      c :: replaceListAux pat sub fuel rest

/-- Python `str.replace` for a non-empty pattern. -/
def strReplace (s pat sub : String) : String :=
  if pat.data.isEmpty then s
  else String.mk (replaceListAux pat.data sub.data s.data.length s.data)

/-- Split on a single space, dropping empty pieces (how the class
attribute string becomes a class list). -/
def splitOnSpace : List Char → List Char → List String
  | acc, [] => [String.mk acc.reverse]
  | acc, c :: rest =>
    if c = ' ' then String.mk acc.reverse :: splitOnSpace [] rest
    else splitOnSpace (c :: acc) rest

/-- Python slicing `s[:n]`. -/
def strTake (s : String) (n : Nat) : String :=
  String.mk (s.data.take n)

/-- Python `str.startswith` / `bytes.startswith`. -/
def strStarts (s pat : String) : Bool :=
  pat.data.isPrefixOf s.data

/-- Decidable substring containment scan, modelling Python `pat in s`. -/
def listHasInfix (pat : List Char) : List Char → Bool
  | [] => pat.isEmpty
  | c :: rest => pat.isPrefixOf (c :: rest) || listHasInfix pat rest

/-- Python `pat in s` on strings. -/
def strContains (s pat : String) : Bool :=
  listHasInfix pat.data s.data

/-- Numeric value of a run of ASCII digits. -/
def natOfDigits (cs : List Char) : Nat :=
  cs.foldl (fun acc c => acc * 10 + (c.toNat - 48)) 0

/-- Python `float()` on the plain decimal literals these pages carry
(optional sign, digits, optional fraction part, surrounding whitespace);
anything else yields `none`, matching the `except ValueError` fallback of
`_parse_float`.  Exponent forms never occur in the scraped cells and are
not modelled. -/
def parseFloatQ (s : String) : Option Rat :=
  let cs := listStrip s.data
  let signAndRest : Rat × List Char :=
    match cs with
    | c :: rest =>
      if c = '-' then (-1, rest) else if c = '+' then (1, rest) else (1, c :: rest)
    | [] => (1, [])
  let sign := signAndRest.1
  let body := signAndRest.2
  let intDigits := body.takeWhile Char.isDigit
  let afterInt := body.dropWhile Char.isDigit
  match afterInt with
  | [] =>
    if intDigits.isEmpty then none
    else some (sign * (natOfDigits intDigits : Rat))
  | '.' :: fracPart =>
    let fracDigits := fracPart.takeWhile Char.isDigit
    let afterFrac := fracPart.dropWhile Char.isDigit
    if ¬ afterFrac.isEmpty then none
    else if intDigits.isEmpty && fracDigits.isEmpty then none
    else
      some (sign *
        ((natOfDigits intDigits : Rat) +
          (natOfDigits fracDigits : Rat) / ((10 : Rat) ^ fracDigits.length)))
  | _ => none

/-! ## Paginated queue fetch (`client.py`, `fetch_all_queue_entries`)

One AJAX response is a JSON object whose `data` field may or may not be a
list (`none` models a malformed non-list `data`) and whose `recordsTotal`
is read through `int(str(...))`. -/

/-- One response of the `ajax_get_queue` endpoint, as inspected by
`fetch_all_queue_entries`. -/
structure AjaxPage (Row : Type) where
  data : Option (List Row)
  recordsTotal : Int

/-- Loop body of `fetch_all_queue_entries`: starting from offset `start`
with accumulated rows `acc` and the list `calls` of offsets requested so
far, keep fetching pages of length 100.  `fuel` bounds the iteration count
(the Python loop has no bound; `none` means the bound was exhausted).
Stops when `data` is not a list, when the incremented offset reaches the
reported total, or when a page is shorter than the requested length. -/
def fetchQueueLoop {Row : Type} (fetch : Nat → AjaxPage Row) :
    Nat → Nat → List Row → List Nat → Option (List Row × List Nat)
  | 0, _, _, _ => none
  | fuel + 1, start, acc, calls =>
    let result := fetch start
    let calls' := calls ++ [start]
    match result.data with
    | none => some (acc, calls')
    | some pageData =>
      let acc' := acc ++ pageData
      let nextStart := start + 100
      if (nextStart : Int) ≥ result.recordsTotal ∨ pageData.length < 100 then
        some (acc', calls')
      else
        fetchQueueLoop fetch fuel nextStart acc' calls'

/-- `fetch_all_queue_entries`: paginate from offset 0 with page size 100,
returning the accumulated rows and the offsets of the issued calls. -/
def fetchAllQueueEntries {Row : Type} (fetch : Nat → AjaxPage Row) (fuel : Nat) :
    Option (List Row × List Nat) :=
  fetchQueueLoop fetch fuel 0 [] []

/-! ## Authenticated request with re-login (`client.py`, `_request`)

The network is an oracle: `send k` is the response to the `k`-th issue of
the original request, `loginAttempt k` the outcome of the `k`-th `login()`
call (`login()` itself performs the CSRF dance and raises `LoginError` on
failure, abstracted here as an `Except`). -/

/-- The facets of an `httpx.Response` that `_request` inspects:
whether `_is_login_response` holds, and whether `raise_for_status` passes. -/
structure RespM where
  isLoginResp : Bool
  statusOk : Bool
deriving DecidableEq, Repr

/-- Errors escaping `_request`: `LoginError` (with its message) or an HTTP
status error from `raise_for_status`. -/
inductive ReqError where
  | authError (msg : String)
  | httpError
deriving DecidableEq, Repr

/-- Network oracle for one `_request` invocation. -/
structure NetM where
  send : Nat → RespM
  loginAttempt : Nat → Except String Unit

/-- Observable outcome of `_request`: the returned response or raised
error, the number of times the original request was sent, the number of
`login()` calls made, and the final `_authenticated` flag. -/
structure ReqOutcome where
  result : Except ReqError RespM
  sends : Nat
  logins : Nat
  authAfter : Bool
deriving Repr

/-- Model of `resp.raise_for_status()` followed by `return resp`. -/
def raiseForStatus (r : RespM) : Except ReqError RespM :=
  if r.statusOk then .ok r else .error .httpError

/-- Body of `_request` after the optional eager login: send the request;
on a login-page redirect drop `_authenticated`, fail without credentials,
otherwise re-login once and resend once. -/
def requestAfterPreLogin (hasCreds authenticated : Bool) (net : NetM)
    (preLogins : Nat) : ReqOutcome :=
  let resp := net.send 0
  if resp.isLoginResp then
    if ¬ hasCreds then
      { result := .error (.authError "Saved session expired and no credentials were provided"),
        sends := 1, logins := preLogins, authAfter := false }
    else
      match net.loginAttempt preLogins with
      | .error m =>
        { result := .error (.authError m), sends := 1, logins := preLogins + 1,
          authAfter := false }
      | .ok _ =>
        let resp2 := net.send 1
        { result := raiseForStatus resp2, sends := 2, logins := preLogins + 1,
          authAfter := true }
  else
    { result := raiseForStatus resp, sends := 1, logins := preLogins,
      authAfter := authenticated }

/-- `_request`: eagerly log in when not yet authenticated and credentials
are available, then run the send/re-login/resend body. -/
def requestModel (authenticated hasCreds : Bool) (net : NetM) : ReqOutcome :=
  if ¬ authenticated ∧ hasCreds then
    match net.loginAttempt 0 with
    | .error m =>
      { result := .error (.authError m), sends := 0, logins := 1, authAfter := false }
    | .ok _ => requestAfterPreLogin hasCreds true net 1
  else requestAfterPreLogin hasCreds authenticated net 0

/-! ## Session persistence (`client.py`, `load_session` / `save_session`)

The session file is a parsed JSON value; `none` as input to `load_session`
models a missing file (`path.exists()` false). -/

/-- Parsed JSON value, as produced by `json.loads`.  Numbers are modelled
as integers (the session files written by `save_session` contain only
strings, so numeric precision is irrelevant here). -/
inductive JVal where
  | jnull
  | jbool (b : Bool)
  | jnum (n : Int)
  | jstr (s : String)
  | jarr (xs : List JVal)
  | jobj (fields : List (String × JVal))

/-- Python `dict.get(k, d)` on a parsed JSON object. -/
def jGet (fields : List (String × JVal)) (k : String) (d : JVal) : JVal :=
  match fields.find? (fun p => p.1 = k) with
  | some p => p.2
  | none => d

/-- Python `str()` applied to a parsed JSON scalar, as done by
`str(item.get("name", ""))` and friends.  Composite values never occur in
the fields the client stringifies, and are rendered by a plain marker. -/
def pyStr : JVal → String
  | .jnull => "None"
  | .jbool true => "True"
  | .jbool false => "False"
  | .jnum n => toString n
  | .jstr s => s
  | .jarr _ => "[...]"
  | .jobj _ => "\x7b...\x7d"

/-- One cookie of the `httpx` jar, restricted to the four attributes the
session file records. -/
structure CookieM where
  name : String
  value : String
  domain : String
  path : String
deriving DecidableEq, Repr

/-- Client state touched by session persistence: the remembered username,
the cookie jar, and the `_authenticated` flag. -/
structure ClientStateM where
  username : String
  cookies : List CookieM
  authenticated : Bool
deriving DecidableEq, Repr

/-- `httpx.Cookies.set`: the underlying `cookiejar` keys cookies by
(name, domain, path), so setting replaces any cookie with the same key and
otherwise appends. -/
def cookieSet (jar : List CookieM) (name value domain path : String) :
    List CookieM :=
  jar.filter (fun c => ¬ (c.name = name ∧ c.domain = domain ∧ c.path = path))
    ++ [{ name := name, value := value, domain := domain, path := path }]

/-- One iteration of the `for item in cookies` loop of `load_session`:
non-dict items are skipped, fields are stringified with defaults, empty
names are skipped, and the cookie is set (with or without an explicit
domain, which in `httpx` both land in the jar with the stored domain). -/
def loadCookieItem (jar : List CookieM) (item : JVal) : List CookieM :=
  match item with
  | .jobj ifields =>
    let name := pyStr (jGet ifields "name" (.jstr ""))
    let value := pyStr (jGet ifields "value" (.jstr ""))
    let domain := pyStr (jGet ifields "domain" (.jstr ""))
    let cookiePath := pyStr (jGet ifields "path" (.jstr "/"))
    if name = "" then jar
    else cookieSet jar name value domain cookiePath
  | _ => jar

/-- `load_session`: `none` (missing file) loads nothing and returns
`false`; a non-object top level makes `raw.get` raise (`.error`); a
non-list `cookies` field returns `false`; otherwise the jar is cleared and
rebuilt from the listed cookies, the saved username is adopted only when
the current one is empty, `_authenticated` is set, and `true` is returned. -/
def loadSession (st : ClientStateM) (file : Option JVal) :
    Except String (Bool × ClientStateM) :=
  match file with
  | none => .ok (false, st)
  | some raw =>
    match raw with
    | .jobj fields =>
      match jGet fields "cookies" (.jarr []) with
      | .jarr items =>
        let jar := items.foldl loadCookieItem []
        let savedUsername := pyStr (jGet fields "username" (.jstr ""))
        let username :=
          if st.username = "" ∧ ¬ savedUsername = "" then savedUsername
          else st.username
        .ok (true, { username := username, cookies := jar, authenticated := true })
      | _ => .ok (false, st)
    | _ => .error "AttributeError"

/-- Serialisation of one jar cookie by `save_session`, with falsy values
defaulted (`or ""`, `or "/"`).  With string-valued fields `x or ""` is the
identity and `path or "/"` replaces only the empty path. -/
def saveCookie (c : CookieM) : JVal :=
  .jobj
    [("name", .jstr c.name),
     ("value", .jstr c.value),
     ("domain", .jstr c.domain),
     ("path", .jstr (if c.path = "" then "/" else c.path))]

/-- `save_session`: serialise the username and every jar cookie. -/
def saveSession (st : ClientStateM) : JVal :=
  .jobj
    [("username", .jstr st.username),
     ("cookies", .jarr (st.cookies.map saveCookie))]

/-- Distinctness of the (name, domain, path) keys under which the
`cookiejar` stores cookies. -/
def cookieKeyNe (a b : CookieM) : Prop :=
  ¬ (a.name = b.name ∧ a.domain = b.domain ∧ a.path = b.path)

/-! ## Download validation (`client.py`, `_validate_downloaded_file` /
`download_file`)

The downloaded file is its content string (the file exists whenever the
download succeeded, so `path.exists()` holds and size 0 means empty
content); bytes-level operations are modelled on the character level. -/

/-- `_validate_downloaded_file`: empty string means valid, otherwise the
returned reason.  Mirrors the source checks in order: empty file; HTML
sniffing over the lowercased, stripped first kilobyte (with the login and
Jupyter markers checked on the raw head); notebook files must start with a
brace; declared HTML content type for a non-HTML extension. -/
def validateDownloadedFile (content contentType expectedSuffix : String) :
    String :=
  if content = "" then "empty_file"
  else
    let head := strTake content 1024
    let headLower := strStrip (strLower head)
    let isHtml :=
      strStarts headLower "<!doctype html" || strStarts headLower "<html" ||
        strContains (strTake headLower 500) "<head>"
    if isHtml then
      if strContains head "id_username" || strContains head "/accounts/login/" then
        "login_redirect"
      else if strContains head "Jupyter Server" || strContains head "Jupyter Notebook" then
        "jupyter_server_html"
      else "html_instead_of_file"
    else if strLower expectedSuffix = ".ipynb" &&
        ¬ strStarts (strLStrip headLower) "\x7b" then
      "invalid_notebook_format"
    else if ¬ contentType = "" && strContains (strLower contentType) "text/html" &&
        ¬ (strLower expectedSuffix = ".html" ∨ strLower expectedSuffix = ".htm") then
      "content_type_html_mismatch"
    else ""

/-- How the `_download_to_file` call inside `download_file` ends: it
re-raises `LoginError`, raises some other exception (caught and turned
into a `download_error` result), or writes `content` and reports the
response `contentType`. -/
inductive DownloadAttempt where
  | raisesLogin
  | fails (msg : String)
  | succeeds (content : String) (contentType : String)

/-- The `success`/`reason` part of the `DownloadResult` dataclass (the
`path` field always echoes the requested output path). -/
structure DownloadResultM where
  success : Bool
  reason : String
deriving DecidableEq, Repr

/-- Final observable state of `download_file`: the returned result or a
re-raised `LoginError` (`.error`), whether the temporary file was removed,
and whether it was renamed onto the final path. -/
structure DownloadEnd where
  outcome : Except Unit DownloadResultM
  tmpRemoved : Bool
  renamed : Bool
deriving Repr

/-- `download_file` after the optional eager login: stream to the
temporary file, validate, and only on full validation success rename the
temporary file onto the final path; every failure removes the temporary
file, and only `LoginError` is re-raised. -/
def downloadFile (attempt : DownloadAttempt) (expectedSuffix : String) :
    DownloadEnd :=
  match attempt with
  | .raisesLogin =>
    { outcome := .error (), tmpRemoved := true, renamed := false }
  | .fails msg =>
    { outcome := .ok { success := false, reason := "download_error: " ++ msg },
      tmpRemoved := true, renamed := false }
  | .succeeds content contentType =>
    let problem := validateDownloadedFile content contentType expectedSuffix
    if ¬ problem = "" then
      { outcome := .ok { success := false, reason := problem },
        tmpRemoved := true, renamed := false }
    else
      { outcome := .ok { success := true, reason := "ok" },
        tmpRemoved := false, renamed := true }

/-! ## A small DOM (`parser.py` works on `BeautifulSoup` trees)

The parsers are embedded from the `Tag` level up: an HTML document is a
tree of element and text nodes, and the BeautifulSoup operations the
sources call (`find`, `find_all`, `children`, `get_text`,
`decode_contents`, `find_previous_sibling`, `decompose`) are implemented
over this tree. -/

/-- DOM node: an element with a tag name, attributes and children, or a
text node holding already-decoded text. -/
inductive Node where
  | elem (tag : String) (attrs : List (String × String)) (children : List Node)
  | text (s : String)

/-- Direct children of a node. -/
def childrenOf : Node → List Node
  | .elem _ _ cs => cs
  | .text _ => []

/-- First value of an attribute, if present. -/
def attrOf (n : Node) (key : String) : Option String :=
  match n with
  | .elem _ attrs _ =>
    match attrs.find? (fun p => p.1 = key) with
    | some p => some p.2
    | none => none
  | .text _ => none

/-- Whether the node is an element with the given tag name. -/
def isElemTag (tag : String) (n : Node) : Bool :=
  match n with
  | .elem t _ _ => t = tag
  | .text _ => false

/-- CSS classes of a node (the `class` attribute split on spaces). -/
def classesOf (n : Node) : List String :=
  (splitOnSpace [] ((attrOf n "class").getD "").data).filter (fun c => ¬ c = "")

/-- BeautifulSoup `class_=` filtering: the class list contains the value. -/
def hasClass (n : Node) (c : String) : Bool :=
  (classesOf n).contains c

/-- BeautifulSoup `id=` filtering with an exact value. -/
def idIs (n : Node) (v : String) : Bool :=
  attrOf n "id" = some v

mutual

/-- All descendants of a node in document (pre-)order, excluding the node
itself, matching what `find` / `find_all` traverse. -/
def descendants : Node → List Node
  | .text _ => []
  | .elem _ _ cs => descendantsList cs

/-- Descendants of a forest in document order. -/
def descendantsList : List Node → List Node
  | [] => []
  | c :: cs => c :: (descendants c ++ descendantsList cs)

end

/-- `find_all(pred)` over descendants, in document order. -/
def findAllNode (n : Node) (p : Node → Bool) : List Node :=
  (descendants n).filter p

/-- `find(pred)`: the first matching descendant. -/
def findNode (n : Node) (p : Node → Bool) : Option Node :=
  (findAllNode n p).head?

mutual

/-- All text-node strings of a subtree in document order
(BeautifulSoup `strings`, self included when the node is text). -/
def textPieces : Node → List String
  | .text s => [s]
  | .elem _ _ cs => textPiecesList cs

/-- Text-node strings of a forest. -/
def textPiecesList : List Node → List String
  | [] => []
  | c :: cs => textPieces c ++ textPiecesList cs

end

/-- `get_text()` with the default empty separator. -/
def getText (n : Node) : String :=
  String.join (textPieces n)

/-- `get_text(strip=True)`: every string stripped, empties dropped,
joined with the empty separator. -/
def getTextStrip (n : Node) : String :=
  String.join (((textPieces n).map strStrip).filter (fun s => ¬ s = ""))

mutual

/-- Serialisation of a node back to markup (`decode_contents` /
`decode`), without entity re-escaping (the claims checked here never
compare serialised markup against entity-bearing text). -/
def renderNode : Node → String
  | .text s => s
  | .elem t attrs cs =>
    "<" ++ t ++ renderAttrsList attrs ++ ">" ++ renderForest cs ++ "</" ++ t ++ ">"

/-- Attribute rendering for `renderNode`. -/
def renderAttrsList : List (String × String) → String
  | [] => ""
  | (k, v) :: rest => " " ++ k ++ "=\"" ++ v ++ "\"" ++ renderAttrsList rest

/-- Forest serialisation for `renderNode`. -/
def renderForest : List Node → String
  | [] => ""
  | c :: cs => renderNode c ++ renderForest cs

end

/-- `decode_contents()`: children serialised in order. -/
def decodeContents (n : Node) : String :=
  renderForest (childrenOf n)

mutual

/-- `decompose()` of every matching node: the tree with all subtrees whose
root matches `p` removed. -/
def removeMatching (p : Node → Bool) : Node → Node
  | .text s => .text s
  | .elem t attrs cs => .elem t attrs (removeMatchingList p cs)

/-- Forest version of `removeMatching`. -/
def removeMatchingList (p : Node → Bool) : List Node → List Node
  | [] => []
  | c :: cs =>
    (if p c then [] else [removeMatching p c]) ++ removeMatchingList p cs

end

mutual

/-- Descendants of a forest paired with their preceding siblings (nearest
first), supporting `find_previous_sibling`.  The first component of each
pair is the descendant, the second the reversed list of its earlier
siblings. -/
def forestWithPrev : List Node → List Node → List (Node × List Node)
  | _, [] => []
  | prevs, c :: cs =>
    (c, prevs) :: (nodeWithPrev c ++ forestWithPrev (c :: prevs) cs)

/-- Descendants of a node paired with their preceding siblings. -/
def nodeWithPrev : Node → List (Node × List Node)
  | .text _ => []
  | .elem _ _ cs => forestWithPrev [] cs

end

/-! ## Regex scanners used by `parser.py`

Each compiled pattern of the source becomes a scanner over `List Char`
implementing `re.search` semantics (first match wins, scanning left to
right). -/

/-- ASCII hexadecimal digit (`[0-9a-fA-F]`). -/
def isHexChar (c : Char) : Bool :=
  c.isDigit || ('a' ≤ c && c ≤ 'f') || ('A' ≤ c && c ≤ 'F')

/-- Day, month, hour, minute, year of a parsed datetime.  The Python
`datetime` constructor additionally validates ranges; the pages under
consideration carry well-formed dates, so validation is not modelled. -/
structure DateTimeM where
  year : Nat
  month : Nat
  day : Nat
  hour : Nat
  minute : Nat
deriving DecidableEq, Repr

/-- Attempt to match `(\d\d):(\d\d)\s+(\d\d)-(\d\d)-(\d\d\d\d)` at the
head of the character list (`_DEADLINE_RE`). -/
def matchDeadlineAt (cs : List Char) : Option DateTimeM :=
  match cs with
  | h1 :: h2 :: ':' :: m1 :: m2 :: rest =>
    if h1.isDigit && h2.isDigit && m1.isDigit && m2.isDigit then
      let afterSpace := rest.dropWhile isPySpace
      if rest.length = afterSpace.length then none
      else
        match afterSpace with
        | d1 :: d2 :: '-' :: mo1 :: mo2 :: '-' :: y1 :: y2 :: y3 :: y4 :: _ =>
          if d1.isDigit && d2.isDigit && mo1.isDigit && mo2.isDigit &&
              y1.isDigit && y2.isDigit && y3.isDigit && y4.isDigit then
            some
              { year := natOfDigits [y1, y2, y3, y4],
                month := natOfDigits [mo1, mo2],
                day := natOfDigits [d1, d2],
                hour := natOfDigits [h1, h2],
                minute := natOfDigits [m1, m2] }
          else none
        | _ => none
    else none
  | _ => none

/-- `_DEADLINE_RE.search`: first position where the deadline pattern
matches. -/
def searchDeadline : List Char → Option DateTimeM
  | [] => none
  | c :: rest =>
    match matchDeadlineAt (c :: rest) with
    | some dt => some dt
    | none => searchDeadline rest

/-- `_parse_deadline`: search the cell text for `HH:MM DD-MM-YYYY`. -/
def parseDeadline (text : String) : Option DateTimeM :=
  searchDeadline text.data

/-- Match `pat(\d+)` at the head of the character list: the literal
pattern followed by at least one digit, whose run is captured. -/
def matchLiteralThenDigitsAt (pat : List Char) (cs : List Char) : Option Nat :=
  if pat.isPrefixOf cs then
    let tail := cs.drop pat.length
    let digits := tail.takeWhile Char.isDigit
    if digits.isEmpty then none else some (natOfDigits digits)
  else none

/-- `re.search` for `pat(\d+)`: scan left to right for the first position
where the literal pattern is followed by digits. -/
def searchLiteralThenDigits (pat : List Char) : List Char → Option Nat
  | [] => none
  | c :: rest =>
    match matchLiteralThenDigitsAt pat (c :: rest) with
    | some n => some n
    | none => searchLiteralThenDigits pat rest

/-- `_TASK_ID_RE.search` (`collapse_(\d+)`) over a string. -/
def searchTaskId (s : String) : Option Nat :=
  searchLiteralThenDigits "collapse_".data s.data

/-- `_TASK_EDIT_RE.search` (`/task/edit/(\d+)`) over a string. -/
def searchTaskEditId (s : String) : Option Nat :=
  searchLiteralThenDigits "/task/edit/".data s.data

/-- Attempt to match `background-color:\s*(#[0-9a-fA-F]+)` at the head of
the character list. -/
def matchBgColorAt (cs : List Char) : Option String :=
  if "background-color:".data.isPrefixOf cs then
    let tail := (cs.drop 17).dropWhile isPySpace
    match tail with
    | '#' :: rest =>
      let hexDigits := rest.takeWhile isHexChar
      if hexDigits.isEmpty then none
      else some (String.mk ('#' :: hexDigits))
    | _ => none
  else none

/-- `re.search` for the background-color pattern used on gradebook cells. -/
def searchBgColor : List Char → Option String
  | [] => none
  | c :: rest =>
    match matchBgColorAt (c :: rest) with
    | some col => some col
    | none => searchBgColor rest

/-- Characters that end a bare URL match of `_URL_RE`
(`https?://[^\s<>\"\x27]+` — whitespace, angle brackets, double or single
quote). -/
def isUrlStop (c : Char) : Bool :=
  isPySpace c || c = '<' || c = '>' || c = '"' || c = Char.ofNat 39

/-- Attempt to match `_URL_RE` at the head of the character list,
returning the matched URL and the number of characters consumed. -/
def matchUrlAt (cs : List Char) : Option (String × Nat) :=
  let scheme :=
    if "https://".data.isPrefixOf cs then some 8
    else if "http://".data.isPrefixOf cs then some 7
    else none
  match scheme with
  | none => none
  | some k =>
    let body := (cs.drop k).takeWhile (fun c => ¬ isUrlStop c)
    if body.isEmpty then none
    else some (String.mk (cs.take k ++ body), k + body.length)

/-- `_URL_RE.finditer`: all non-overlapping matches, scanning left to
right.  `fuel` bounds the scan; with `fuel = cs.length` the whole input is
scanned. -/
def urlMatchesAux : Nat → List Char → List String
  | 0, _ => []
  | _, [] => []
  | fuel + 1, c :: rest =>
    match matchUrlAt (c :: rest) with
    | some (url, consumed) => url :: urlMatchesAux fuel ((c :: rest).drop consumed)
    | none => urlMatchesAux fuel rest

/-- All bare-URL matches of `_URL_RE` in a string. -/
def urlMatches (s : String) : List String :=
  urlMatchesAux s.data.length s.data

/-! ## Data models (`models.py`) -/

/-- The `Task` dataclass with its field defaults. -/
structure Task where
  task_id : Nat
  title : String
  description : String := ""
  deadline : Option DateTimeM := none
  max_score : Option Rat := none
  score : Option Rat := none
  status : String := ""
  «section» : String := ""
  edit_url : String := ""
  submit_url : String := ""
deriving DecidableEq, Repr

/-- The `Course` dataclass. -/
structure Course where
  course_id : Nat
  title : String := ""
  teachers : List String := []
  tasks : List Task := []
deriving DecidableEq, Repr

/-! ## Course page parsing (`parser.py`, `parse_course_page`) -/

/-- HTML entity decoding (`html.unescape`) restricted to the five basic
entities occurring on these pages. -/
def unescapeStr (s : String) : String :=
  strReplace
    (strReplace (strReplace (strReplace (strReplace s "&amp;" "&") "&lt;" "<")
      "&gt;" ">") "&quot;" "\"")
    ("&#39" ++ ";") (String.mk [Char.ofNat 39])

/-- `_extract_course_title`: the `h5.card-title` text with `span` children
decomposed. -/
def extractCourseTitle (page : Node) : String :=
  match findNode page (fun n => isElemTag "h5" n && hasClass n "card-title") with
  | none => ""
  | some cardTitle => getTextStrip (removeMatching (isElemTag "span") cardTitle)

/-- `_extract_teachers`: the anchor texts of `p.course_teachers`. -/
def extractTeachers (page : Node) : List String :=
  match findNode page (fun n => isElemTag "p" n && hasClass n "course_teachers") with
  | none => []
  | some teachersP => (findAllNode teachersP (isElemTag "a")).map getTextStrip

/-- Whether an id value matches `^collapse_group_\d+$` (used with
`re.search`, so effectively a full match thanks to both anchors). -/
def idFullGroupMatch (v : String) : Bool :=
  let pre := "collapse_group_".data
  pre.isPrefixOf v.data &&
    (let tail := v.data.drop pre.length
     ¬ tail.isEmpty && tail.all Char.isDigit)

/-- Whether an id value matches `^collapse_group_\d+` (no end anchor, used
when iterating the teacher groups). -/
def idLooseGroupMatch (v : String) : Bool :=
  let pre := "collapse_group_".data
  pre.isPrefixOf v.data &&
    match v.data.drop pre.length with
    | c :: _ => c.isDigit
    | [] => false

/-- Parse of one `div.tasks-list` in student view, relative to the
enclosing tasks table (needed for the description lookup). -/
def studentTaskOfDiv (tasksTable taskDiv : Node) : Option Task :=
  let columns := (childrenOf taskDiv).filter (isElemTag "div")
  match columns with
  | c0 :: c1 :: c2 :: c3 :: restCols =>
    let titleLink :=
      findNode c0 (fun n => isElemTag "a" n && attrOf n "data-toggle" = some "collapse")
    let title :=
      match titleLink with
      | some link => getTextStrip link
      | none => getTextStrip c0
    let taskId :=
      match titleLink with
      | some link => (searchTaskId ((attrOf link "href").getD "")).getD 0
      | none => 0
    let score := parseFloatQ (getTextStrip c1)
    let status :=
      match findNode c2 (fun n => isElemTag "span" n && hasClass n "label") with
      | some statusSpan => getTextStrip statusSpan
      | none => ""
    let deadline := parseDeadline (getText c3)
    let submitUrl :=
      match restCols with
      | c4 :: _ =>
        match findNode c4 (fun n => isElemTag "a" n && (attrOf n "href").isSome) with
        | some link => (attrOf link "href").getD ""
        | none => ""
      | [] => ""
    let description :=
      if ¬ taskId = 0 then
        match findNode tasksTable
            (fun n => isElemTag "div" n && idIs n ("collapse_" ++ toString taskId)) with
        | some collapseDiv =>
          match findNode collapseDiv (isElemTag "div") with
          | some innerDiv => strStrip (decodeContents innerDiv)
          | none => ""
        | none => ""
      else ""
    some
      { task_id := taskId, title := title, description := description,
        deadline := deadline, score := score, status := status,
        submit_url := submitUrl }
  | _ => none

/-- `_parse_student_tasks`: every `div.tasks-list` under `#tasks-table`,
rows with fewer than four column divs skipped. -/
def parseStudentTasks (tasksTab : Node) : List Task :=
  match findNode tasksTab (fun n => isElemTag "div" n && idIs n "tasks-table") with
  | none => []
  | some tasksTable =>
    (findAllNode tasksTable (fun n => isElemTag "div" n && hasClass n "tasks-list")).filterMap
      (studentTaskOfDiv tasksTable)

/-- `_find_group_header`: the `h6` text (anchors decomposed) of the
nearest preceding sibling `div` of a group collapse div. -/
def findGroupHeader (prevs : List Node) : String :=
  match prevs.find? (isElemTag "div") with
  | none => ""
  | some prev =>
    match findNode prev (isElemTag "h6") with
    | none => ""
    | some h6 => getTextStrip (removeMatching (isElemTag "a") h6)

/-- Parse of one `div.tasks-list` in teacher view, given the section name
of its group. -/
def teacherTaskOfDiv (sectionName : String) (taskDiv : Node) : Option Task :=
  let columns := (childrenOf taskDiv).filter (isElemTag "div")
  match columns with
  | c0 :: c1 :: c2 :: c3 :: _ =>
    let title := getTextStrip c0
    let editLink :=
      findNode c1 (fun n => isElemTag "a" n &&
        match attrOf n "href" with
        | some h => (searchTaskEditId h).isSome
        | none => false)
    let editUrl :=
      match editLink with
      | some link => (attrOf link "href").getD ""
      | none => ""
    let taskId :=
      match editLink with
      | some _ => (searchTaskEditId editUrl).getD 0
      | none => 0
    let maxScore :=
      match findNode c2 (fun n => isElemTag "span" n && hasClass n "label") with
      | some scoreSpan => parseFloatQ (getTextStrip scoreSpan)
      | none => none
    let deadline := parseDeadline (getText c3)
    some
      { task_id := taskId, title := title, deadline := deadline,
        max_score := maxScore, «section» := unescapeStr sectionName,
        edit_url := editUrl }
  | _ => none

/-- `_parse_teacher_tasks`: for every descendant div whose id matches the
loose group pattern, parse its `div.tasks-list` rows with the section name
taken from the group header. -/
def parseTeacherTasks (tasksTab : Node) : List Task :=
  match findNode tasksTab (fun n => isElemTag "div" n && idIs n "tasks-table") with
  | none => []
  | some tasksTable =>
    ((nodeWithPrev tasksTable).filter (fun gp =>
        isElemTag "div" gp.1 &&
          match attrOf gp.1 "id" with
          | some v => idLooseGroupMatch v
          | none => false)).flatMap
      (fun gp =>
        let sectionName := findGroupHeader gp.2
        (findAllNode gp.1 (fun n => isElemTag "div" n && hasClass n "tasks-list")).filterMap
          (teacherTaskOfDiv sectionName))

/-- `parse_course_page`: title and teachers always, tasks only when the
`tasks-tab` div exists, dispatched on the presence of a
`collapse_group_\d+` div (teacher view) inside it. -/
def parseCoursePage (page : Node) (courseId : Nat) : Course :=
  let title := extractCourseTitle page
  let teachers := extractTeachers page
  match findNode page (fun n => isElemTag "div" n && idIs n "tasks-tab") with
  | none => { course_id := courseId, title := title, teachers := teachers }
  | some tasksTab =>
    let hasGroups :=
      (findNode tasksTab (fun n => isElemTag "div" n &&
        match attrOf n "id" with
        | some v => idFullGroupMatch v
        | none => false)).isSome
    let tasks :=
      if hasGroups then parseTeacherTasks tasksTab else parseStudentTasks tasksTab
    { course_id := courseId, title := title, teachers := teachers, tasks := tasks }

/-- View detection of the claim, matching the dispatch of
`parse_course_page`: a page is teacher view when its `tasks-tab` contains
a div whose id fully matches `collapse_group_\d+`. -/
def courseHasGroups (page : Node) : Bool :=
  match findNode page (fun n => isElemTag "div" n && idIs n "tasks-tab") with
  | none => false
  | some tasksTab =>
    (findNode tasksTab (fun n => isElemTag "div" n &&
      match attrOf n "id" with
      | some v => idFullGroupMatch v
      | none => false)).isSome

/-! ## Link extraction (`parser.py`, `_extract_urls_from_html`)

The source re-parses the comment markup string with BeautifulSoup; the
embedding starts from the parsed fragment.  An empty markup string parses
to an empty fragment, handled by the early return. -/

/-- `_extract_urls_from_html` over the parsed fragment: collect the href
of every anchor carrying an `href` attribute whose value starts with
"http" (appended unconditionally, in document order), then every bare URL
matched in the rendered text, each appended only when not already present. -/
def extractUrlsFromHtml (content : Node) : List String :=
  let anchorUrls :=
    (findAllNode content (fun n => isElemTag "a" n && (attrOf n "href").isSome)).foldl
      (fun urls a =>
        let href := (attrOf a "href").getD ""
        if strStarts href "http" then urls ++ [href] else urls)
      []
  (urlMatches (getText content)).foldl
    (fun urls url => if urls.contains url then urls else urls ++ [url])
    anchorUrls

/-- Spec-side description of the anchor part of the extraction: the href
attributes of anchors with an `href`, in document order, kept when they
start with "http". -/
def anchorHttpHrefs (content : Node) : List String :=
  ((findAllNode content (fun n => isElemTag "a" n && (attrOf n "href").isSome)).map
      (fun a => (attrOf a "href").getD "")).filter
    (fun href => strStarts href "http")

/-- Spec-side description of the text part of the extraction: the bare
URLs in match order, each kept only at its first occurrence and only when
not already present among the previously collected URLs (`seen` starts at
the anchor hrefs and grows with every kept URL). -/
def dedupAgainst (seen : List String) : List String → List String
  | [] => []
  | m :: rest =>
    if m ∈ seen then dedupAgainst seen rest
    else m :: dedupAgainst (seen ++ [m]) rest

/-! ## Gradebook row parsing (`parser.py`, `_parse_gradebook_row`)

Python dicts preserve insertion order and update in place; they are
modelled as association lists with exactly that update rule. -/

/-- Python `d[k] = v` on an order-preserving association list. -/
def dictSet (l : List (String × α)) (k : String) (v : α) : List (String × α) :=
  if l.any (fun p => p.1 = k) then
    l.map (fun p => if p.1 = k then (k, v) else p)
  else l ++ [(k, v)]

/-- The `GradebookEntry` dataclass. -/
structure GradebookEntry where
  student_name : String
  student_url : String
  scores : List (String × Rat) := []
  statuses : List (String × String) := []
  issue_urls : List (String × String) := []
  total_score : Rat := 0
deriving DecidableEq, Repr

/-- State threaded through the per-task cell loop of
`_parse_gradebook_row`. -/
structure RowMaps where
  scores : List (String × Rat)
  statuses : List (String × String)
  issue_urls : List (String × String)
deriving DecidableEq, Repr

/-- One iteration of the `for i, title in enumerate(task_titles)` loop:
a `span.label` cell records the parsed score (unparsable text counts 0)
and, when a background-color style is present, the status colour; any
anchor with an href records the issue URL. -/
def gradebookCellStep (maps : RowMaps) (cell : String × Node) : RowMaps :=
  let title := cell.1
  let td := cell.2
  let afterSpan :=
    match findNode td (fun n => isElemTag "span" n && hasClass n "label") with
    | some span =>
      let val := (parseFloatQ (getTextStrip span)).getD 0
      let scores := dictSet maps.scores title val
      let style := (attrOf span "style").getD ""
      match searchBgColor style.data with
      | some color =>
        { maps with scores := scores, statuses := dictSet maps.statuses title color }
      | none => { maps with scores := scores }
    | none => maps
  match findNode td (fun n => isElemTag "a" n && (attrOf n "href").isSome) with
  | some aTag =>
    { afterSpan with
      issue_urls := dictSet afterSpan.issue_urls title ((attrOf aTag "href").getD "") }
  | none => afterSpan

/-- The stated total of a gradebook row: the value parsed from the row's
own precomputed total cell (`td.sum-score`, its `span.label` text),
defaulting to 0.  This follows the wording of the specification and is
compared against what `_parse_gradebook_row` stores. -/
def statedTotalOfRow (tr : Node) : Rat :=
  match findNode tr (fun n => isElemTag "td" n && hasClass n "sum-score") with
  | some sumTd =>
    match findNode sumTd (fun n => isElemTag "span" n && hasClass n "label") with
    | some sumSpan => (parseFloatQ (getTextStrip sumSpan)).getD 0
    | none => 0
  | none => 0

/-- `_parse_gradebook_row`: rows with fewer than three direct `td`
children or no student link yield `None`; per-task cells are the `td`s
from the third on, zipped against the task titles; the total score comes
from the `sum-score` cell. -/
def parseGradebookRow (tr : Node) (taskTitles : List String) :
    Option GradebookEntry :=
  let tds := (childrenOf tr).filter (isElemTag "td")
  match tds with
  | _ :: studentTd :: scoreTd0 :: restTds =>
    let scoreTds := scoreTd0 :: restTds
    match findNode studentTd (fun n => isElemTag "a" n && hasClass n "card-link") with
    | none => none
    | some studentLink =>
      let studentName :=
        strReplace (getTextStrip studentLink) (String.mk [Char.ofNat 160]) " "
      let studentUrl := (attrOf studentLink "href").getD ""
      let maps :=
        (taskTitles.zip scoreTds).foldl gradebookCellStep
          { scores := [], statuses := [], issue_urls := [] }
      let totalScore :=
        match findNode tr (fun n => isElemTag "td" n && hasClass n "sum-score") with
        | some sumTd =>
          match findNode sumTd (fun n => isElemTag "span" n && hasClass n "label") with
          | some sumSpan => (parseFloatQ (getTextStrip sumSpan)).getD 0
          | none => 0
        | none => 0
      some
        { student_name := studentName, student_url := studentUrl,
          scores := maps.scores, statuses := maps.statuses,
          issue_urls := maps.issue_urls, total_score := totalScore }
  | _ => none

/-- Sum of the per-task scores recorded in a gradebook entry. -/
def sumOfTaskScores (e : GradebookEntry) : Rat :=
  (e.scores.map (fun p => p.2)).sum

/-! ## TUI cache layer (`tui/app.py` and `tui/screens/main.py`)

`AnytaskApp` holds the per-course caches; the operations that touch them
are `remove_course_id` (app.py), `action_logout` (main.py), and the two
fetch completions that insert results (main.py). -/

/-- The application state relevant to the cache claims; cached values are
kept abstract. -/
structure AppState (Q G : Type) where
  courses : Nat → Option Course
  queue_cache : Nat → Option Q
  gradebook_cache : Nat → Option G
  hasClient : Bool
  sessionPath : String

/-- `remove_course_id`: pop the course and both of its cache entries
(persisting the course-id list is file I/O and not modelled). -/
def removeCourseId (st : AppState Q G) (courseId : Nat) : AppState Q G :=
  { st with
    courses := fun k => if k = courseId then none else st.courses k,
    queue_cache := fun k => if k = courseId then none else st.queue_cache k,
    gradebook_cache := fun k => if k = courseId then none else st.gradebook_cache k }

/-- `action_logout` (main.py): drop the client and session path and reset
the course list and both caches to empty. -/
def actionLogout (st : AppState Q G) : AppState Q G :=
  { st with
    hasClient := false,
    sessionPath := "",
    courses := fun _ => none,
    queue_cache := fun _ => none,
    gradebook_cache := fun _ => none }

/-- Queue fetch completion (main.py): store the fetched queue under its
course id. -/
def queueFetchDone (st : AppState Q G) (courseId : Nat) (q : Q) : AppState Q G :=
  { st with queue_cache := fun k => if k = courseId then some q else st.queue_cache k }

/-- Gradebook fetch completion (main.py): store the fetched gradebook
under its course id. -/
def gradebookFetchDone (st : AppState Q G) (courseId : Nat) (g : G) :
    AppState Q G :=
  { st with
    gradebook_cache := fun k => if k = courseId then some g else st.gradebook_cache k }

/-! ## Concrete instances used by witnesses and counterexamples -/

/-- Queue AJAX oracle of the pagination scenario: every call returns
`min 100 (250 - start)` rows and reports 250 total records. -/
def exFetch (s : Nat) : AjaxPage Nat :=
  { data := some (List.range (min 100 (250 - s))), recordsTotal := 250 }

/-- Network oracle whose first send is a login redirect and whose re-login
succeeds; the retried send also redirects to the login page with HTTP 200. -/
def exNet : NetM :=
  { send := fun _ => { isLoginResp := true, statusOk := true },
    loginAttempt := fun _ => .ok () }

/-- Client state with an unnamed cookie, exercising the cookie round-trip
edge case. -/
def exBadJarState : ClientStateM :=
  { username := "u",
    cookies := [{ name := "", value := "v", domain := "d", path := "/" }],
    authenticated := true }

/-- Client state with a cookie whose path is empty, exercising the
`path or "/"` default of `save_session`. -/
def exEmptyPathState : ClientStateM :=
  { username := "u",
    cookies := [{ name := "n", value := "v", domain := "d", path := "" }],
    authenticated := true }

/-- Client state with a realistic jar of two well-formed cookies. -/
def exGoodJarState : ClientStateM :=
  { username := "alice",
    cookies :=
      [{ name := "sessionid", value := "s1", domain := "anytask.org", path := "/" },
       { name := "csrftoken", value := "t2", domain := "", path := "/" }],
    authenticated := true }

/-- Student-view course page with one task row. -/
def exStudentPage : Node :=
  .elem "html" [] [
    .elem "h5" [("class", "card-title")] [.text "Algo"],
    .elem "div" [("id", "tasks-tab")] [
      .elem "div" [("id", "tasks-table")] [
        .elem "div" [("class", "tasks-list")] [
          .elem "div" [] [
            .elem "a" [("data-toggle", "collapse"), ("href", "#collapse_42")]
              [.text "HW 1"]],
          .elem "div" [] [.text "3.5"],
          .elem "div" [] [.elem "span" [("class", "label")] [.text "Зачтено"]],
          .elem "div" [] [.text "23:59 31-12-2024"],
          .elem "div" [] [.elem "a" [("href", "/issue/7")] [.text "submit"]]],
        .elem "div" [("id", "collapse_42")] [
          .elem "div" [] [.text "do the thing"]]]]]

/-- Teacher-view course page with one group and one task row. -/
def exTeacherPage : Node :=
  .elem "html" [] [
    .elem "div" [("id", "tasks-tab")] [
      .elem "div" [("id", "tasks-table")] [
        .elem "div" [] [.elem "h6" [] [.text "Group A"]],
        .elem "div" [("id", "collapse_group_3")] [
          .elem "div" [("class", "tasks-list")] [
            .elem "div" [] [.text "HW 1"],
            .elem "div" [] [.elem "a" [("href", "/task/edit/42")] [.text "edit"]],
            .elem "div" [] [.elem "span" [("class", "label")] [.text "10"]],
            .elem "div" [] [.text "23:59 31-12-2024"]]]]]]

/-- Gradebook row whose per-task scores sum to 5 while the precomputed
total cell says 7. -/
def exGradebookRow : Node :=
  .elem "tr" [] [
    .elem "td" [] [.text "1"],
    .elem "td" [] [
      .elem "a" [("class", "card-link"), ("href", "/users/stu")] [.text "Stu Dent"]],
    .elem "td" [] [
      .elem "span" [("class", "label"), ("style", "background-color: #ccffcc")]
        [.text "2"]],
    .elem "td" [] [.elem "span" [("class", "label")] [.text "3"]],
    .elem "td" [("class", "sum-score")] [
      .elem "span" [("class", "label")] [.text "7"]]]

/-- Entry produced by `_parse_gradebook_row` on `exGradebookRow`; the
numeric fields are written as the parses of the cell texts "2", "3" and
"7" (numerically 2, 3 and 7). -/
def exGradebookEntry : GradebookEntry :=
  { student_name := "Stu Dent", student_url := "/users/stu",
    scores := [("t1", (parseFloatQ "2").getD 0), ("t2", (parseFloatQ "3").getD 0)],
    statuses := [("t1", "#ccffcc")],
    issue_urls := [], total_score := (parseFloatQ "7").getD 0 }

/-- Comment fragment with two anchors sharing the same href. -/
def exDupLinkNode : Node :=
  .elem "div" [] [
    .elem "a" [("href", "http://x")] [.text "first"],
    .elem "a" [("href", "http://x")] [.text "second"]]

/-- Comment fragment with one anchor and one bare URL in the text. -/
def exMixedLinkNode : Node :=
  .elem "div" [] [
    .elem "a" [("href", "http://a/1")] [.text "link"],
    .text " see http://b/2 too"]

/-- Application state with one cached queue, used for the cache claims. -/
def exAppState : AppState Nat Nat :=
  { courses := fun _ => none,
    queue_cache := fun k => if k = 1 then some 7 else none,
    gradebook_cache := fun k => if k = 1 then some 9 else none,
    hasClient := true,
    sessionPath := "s.json" }

/-! ## Theorems -/

/-- Unfolding lemma: a pagination step whose stop condition holds returns
the accumulated rows and calls. -/
theorem fetchQueueLoop_stop {Row : Type} (g : Nat → AjaxPage Row)
    (fuel start : Nat) (acc : List Row) (calls : List Nat) (d : List Row)
    (hd : (g start).data = some d)
    (hc : ((start + 100 : Nat) : Int) ≥ (g start).recordsTotal ∨ d.length < 100) :
    fetchQueueLoop g (fuel + 1) start acc calls = some (acc ++ d, calls ++ [start]) := by
  simp only [fetchQueueLoop, hd]
  rw [if_pos hc]

/-- Unfolding lemma: a pagination step whose stop condition fails recurses
with the next offset. -/
theorem fetchQueueLoop_cont {Row : Type} (g : Nat → AjaxPage Row)
    (fuel start : Nat) (acc : List Row) (calls : List Nat) (d : List Row)
    (hd : (g start).data = some d)
    (hc : ¬ (((start + 100 : Nat) : Int) ≥ (g start).recordsTotal ∨ d.length < 100)) :
    fetchQueueLoop g (fuel + 1) start acc calls =
      fetchQueueLoop g fuel (start + 100) (acc ++ d) (calls ++ [start]) := by
  simp only [fetchQueueLoop, hd]
  rw [if_neg hc]

/-- C1.  When every AJAX call at offset `start` (page length 100) returns
`min 100 (250 - start)` rows and reports `recordsTotal = 250`,
`fetch_all_queue_entries` issues exactly the three calls at offsets 0, 100
and 200 and returns the 250 rows concatenated in server order; and in
general one loop iteration stops exactly when the returned page is shorter
than the requested length or the incremented cumulative offset reaches the
reported total. -/
theorem c1_pagination {Row : Type} (fetch : Nat → AjaxPage Row)
    (htot : ∀ s, (fetch s).recordsTotal = 250)
    (hdata : ∀ s, ∃ d, (fetch s).data = some d ∧ d.length = min 100 (250 - s)) :
    (∃ d0 d1 d2,
      (fetch 0).data = some d0 ∧ (fetch 100).data = some d1 ∧
        (fetch 200).data = some d2 ∧
        fetchAllQueueEntries fetch 3 = some (d0 ++ d1 ++ d2, [0, 100, 200]) ∧
        (d0 ++ d1 ++ d2).length = 250) ∧
    (∀ (g : Nat → AjaxPage Row) (fuel start : Nat) (acc : List Row)
        (calls : List Nat) (d : List Row),
      (g start).data = some d →
      ((((start + 100 : Nat) : Int) ≥ (g start).recordsTotal ∨ d.length < 100 →
        fetchQueueLoop g (fuel + 1) start acc calls = some (acc ++ d, calls ++ [start])) ∧
       (¬ (((start + 100 : Nat) : Int) ≥ (g start).recordsTotal ∨ d.length < 100) →
        fetchQueueLoop g (fuel + 1) start acc calls =
          fetchQueueLoop g fuel (start + 100) (acc ++ d) (calls ++ [start])))) := by
  constructor
  · obtain ⟨d0, h0, l0⟩ := hdata 0
    obtain ⟨d1, h1, l1⟩ := hdata 100
    obtain ⟨d2, h2, l2⟩ := hdata 200
    have l0' : d0.length = 100 := by omega
    have l1' : d1.length = 100 := by omega
    have l2' : d2.length = 50 := by omega
    refine ⟨d0, d1, d2, h0, h1, h2, ?_, by simp [l0', l1', l2']⟩
    have s1 := fetchQueueLoop_cont fetch 2 0 [] [] d0 h0
      (by rw [htot 0]; push_neg; exact ⟨by norm_num, by omega⟩)
    have s2 := fetchQueueLoop_cont fetch 1 (0 + 100) ([] ++ d0) ([] ++ [0]) d1
      (by simpa using h1)
      (by simp only [htot]; push_neg; exact ⟨by norm_num, by omega⟩)
    have s3 := fetchQueueLoop_stop fetch 0 (0 + 100 + 100) ([] ++ d0 ++ d1)
      ([] ++ [0] ++ [0 + 100]) d2 (by simpa using h2) (by simp only [htot]; norm_num)
    show fetchQueueLoop fetch (2 + 1) 0 [] [] = _
    rw [s1, s2, s3]
    simp
  · intro g fuel start acc calls d hd
    exact ⟨fun hc => fetchQueueLoop_stop g fuel start acc calls d hd hc,
      fun hc => fetchQueueLoop_cont g fuel start acc calls d hd hc⟩

/-- Witness for C1 at a concrete oracle. -/
theorem c1_pagination_witness :
    fetchAllQueueEntries exFetch 3 =
      some (List.range 100 ++ List.range 100 ++ List.range 50, [0, 100, 200]) := by
  obtain ⟨⟨d0, d1, d2, h0, h1, h2, hrun, _⟩, _⟩ :=
    c1_pagination exFetch (fun _ => rfl)
      (fun s => ⟨List.range (min 100 (250 - s)), rfl, by simp⟩)
  have e0 : some (List.range 100) = some d0 := by
    rw [← h0]; norm_num [exFetch]
  have e1 : some (List.range 100) = some d1 := by
    rw [← h1]; norm_num [exFetch]
  have e2 : some (List.range 50) = some d2 := by
    rw [← h2]; norm_num [exFetch]
  cases e0; cases e1; cases e2
  exact hrun

/-- C2.  For a session that looks valid (`_authenticated` set) whose first
response is a login-page redirect: without credentials the request fails
with the session-expired `LoginError` after a single send and no re-login;
with credentials, exactly one re-login and one resend happen and the
retried outcome is returned as is — in particular a second login-page
redirect is handed back without any further re-login — while a failing
re-login propagates its own `LoginError`. -/
theorem c2_relogin_policy (net : NetM) (h : (net.send 0).isLoginResp = true) :
    requestModel true false net =
      { result := .error (.authError "Saved session expired and no credentials were provided"),
        sends := 1, logins := 0, authAfter := false } ∧
    (∀ m, net.loginAttempt 0 = .error m →
      requestModel true true net =
        { result := .error (.authError m), sends := 1, logins := 1, authAfter := false }) ∧
    (∀ u, net.loginAttempt 0 = .ok u →
      requestModel true true net =
        { result := raiseForStatus (net.send 1), sends := 2, logins := 1,
          authAfter := true }) := by
  refine ⟨?_, ?_, ?_⟩
  · simp [requestModel, requestAfterPreLogin, h]
  · intro m hm
    simp [requestModel, requestAfterPreLogin, h, hm]
  · intro u hu
    simp [requestModel, requestAfterPreLogin, h, hu]

/-- Witness for C2: the retried request also redirects to the login page
and its response is returned with exactly one re-login. -/
theorem c2_relogin_policy_witness :
    requestModel true true exNet =
      { result := .ok { isLoginResp := true, statusOk := true }, sends := 2,
        logins := 1, authAfter := true } := by
  have h := (c2_relogin_policy exNet rfl).2.2 () rfl
  simpa [raiseForStatus, exNet] using h

/-- Every task produced by the student-view parser leaves the teacher-only
fields at their defaults. -/
theorem parseStudentTasks_fields (tasksTab : Node) :
    ∀ t ∈ parseStudentTasks tasksTab,
      t.«section» = "" ∧ t.max_score = none ∧ t.edit_url = "" := by
  intro t ht
  unfold parseStudentTasks at ht
  split at ht
  · simp at ht
  · rw [List.mem_filterMap] at ht
    obtain ⟨a, _, hfa⟩ := ht
    unfold studentTaskOfDiv at hfa
    dsimp only at hfa
    split at hfa
    · cases hfa
      exact ⟨rfl, rfl, rfl⟩
    · cases hfa

/-- Every task produced by the teacher-view parser leaves the student-only
fields at their defaults. -/
theorem parseTeacherTasks_fields (tasksTab : Node) :
    ∀ t ∈ parseTeacherTasks tasksTab,
      t.score = none ∧ t.status = "" ∧ t.submit_url = "" ∧ t.description = "" := by
  intro t ht
  unfold parseTeacherTasks at ht
  split at ht
  · simp at ht
  · rw [List.mem_flatMap] at ht
    obtain ⟨gp, _, hinner⟩ := ht
    rw [List.mem_filterMap] at hinner
    obtain ⟨a, _, hfa⟩ := hinner
    unfold teacherTaskOfDiv at hfa
    dsimp only at hfa
    split at hfa
    · cases hfa
      exact ⟨rfl, rfl, rfl, rfl⟩
    · cases hfa

/-- C3.  On a course page without a group-collapse element in its tasks
tab (student view), every parsed task has an empty section and the
teacher-only fields `max_score` and `edit_url` unset; on a page with at
least one group-collapse element (teacher view), every parsed task has
`score`, `status`, `submit_url` and `description` unset. -/
theorem c3_view_field_invariant (page : Node) (courseId : Nat) :
    (courseHasGroups page = false →
      ∀ t ∈ (parseCoursePage page courseId).tasks,
        t.«section» = "" ∧ t.max_score = none ∧ t.edit_url = "") ∧
    (courseHasGroups page = true →
      ∀ t ∈ (parseCoursePage page courseId).tasks,
        t.score = none ∧ t.status = "" ∧ t.submit_url = "" ∧ t.description = "") := by
  constructor
  · intro hfalse t ht
    unfold courseHasGroups at hfalse
    unfold parseCoursePage at ht
    cases hTab : findNode page (fun n => isElemTag "div" n && idIs n "tasks-tab") with
    | none =>
      rw [hTab] at ht
      simp at ht
    | some tasksTab =>
      rw [hTab] at ht hfalse
      simp only at ht hfalse
      simp only [hfalse, Bool.false_eq_true, if_false] at ht
      exact parseStudentTasks_fields tasksTab t ht
  · intro htrue t ht
    unfold courseHasGroups at htrue
    unfold parseCoursePage at ht
    cases hTab : findNode page (fun n => isElemTag "div" n && idIs n "tasks-tab") with
    | none =>
      rw [hTab] at htrue
      simp at htrue
    | some tasksTab =>
      rw [hTab] at ht htrue
      simp only at ht htrue
      simp only [htrue, if_true] at ht
      exact parseTeacherTasks_fields tasksTab t ht

/-- Witness for C3 on concrete student- and teacher-view pages. -/
theorem c3_view_field_invariant_witness :
    courseHasGroups exStudentPage = false ∧ courseHasGroups exTeacherPage = true ∧
    (∀ t ∈ (parseCoursePage exStudentPage 5).tasks,
      t.«section» = "" ∧ t.max_score = none ∧ t.edit_url = "") ∧
    (∀ t ∈ (parseCoursePage exTeacherPage 5).tasks,
      t.score = none ∧ t.status = "" ∧ t.submit_url = "" ∧ t.description = "") :=
  ⟨by decide, by decide,
    (c3_view_field_invariant exStudentPage 5).1 (by decide),
    (c3_view_field_invariant exTeacherPage 5).2 (by decide)⟩

/-- Loading a cookie saved by `save_session` appends it to the jar when
its name and path are non-empty and its key clashes with nothing already
loaded. -/
theorem loadCookieItem_saveCookie (acc : List CookieM) (c : CookieM)
    (hname : c.name ≠ "") (hpath : c.path ≠ "")
    (hdisj : ∀ x ∈ acc, cookieKeyNe x c) :
    loadCookieItem acc (saveCookie c) = acc ++ [c] := by
  unfold loadCookieItem saveCookie
  dsimp only
  have hn : pyStr (jGet
      [("name", JVal.jstr c.name), ("value", JVal.jstr c.value),
       ("domain", JVal.jstr c.domain),
       ("path", JVal.jstr (if c.path = "" then "/" else c.path))] "name"
      (.jstr "")) = c.name := rfl
  have hp : pyStr (jGet
      [("name", JVal.jstr c.name), ("value", JVal.jstr c.value),
       ("domain", JVal.jstr c.domain),
       ("path", JVal.jstr (if c.path = "" then "/" else c.path))] "path"
      (.jstr "/")) = if c.path = "" then "/" else c.path := rfl
  have hv : pyStr (jGet
      [("name", JVal.jstr c.name), ("value", JVal.jstr c.value),
       ("domain", JVal.jstr c.domain),
       ("path", JVal.jstr (if c.path = "" then "/" else c.path))] "value"
      (.jstr "")) = c.value := rfl
  have hdm : pyStr (jGet
      [("name", JVal.jstr c.name), ("value", JVal.jstr c.value),
       ("domain", JVal.jstr c.domain),
       ("path", JVal.jstr (if c.path = "" then "/" else c.path))] "domain"
      (.jstr "")) = c.domain := rfl
  rw [hn, hp, hv, hdm, if_neg hname, if_neg hpath]
  unfold cookieSet
  congr 1
  exact List.filter_eq_self.mpr
    (fun a ha => by simp only [decide_eq_true_eq]; exact hdisj a ha)

/-- Folding the loader over cookies saved by `save_session` rebuilds the
jar exactly, for well-formed pairwise key-distinct cookies. -/
theorem loadCookies_roundtrip :
    ∀ (cs acc : List CookieM),
      (∀ c ∈ cs, c.name ≠ "" ∧ c.path ≠ "") →
      (acc ++ cs).Pairwise cookieKeyNe →
      (cs.map saveCookie).foldl loadCookieItem acc = acc ++ cs := by
  intro cs
  induction cs with
  | nil => simp
  | cons c rest ih =>
    intro acc h hpw
    have hdisj : ∀ x ∈ acc, cookieKeyNe x c := by
      rw [List.pairwise_append] at hpw
      intro x hx
      exact hpw.2.2 x hx c (List.mem_cons_self c rest)
    simp only [List.map_cons, List.foldl_cons]
    rw [loadCookieItem_saveCookie acc c (h c (List.mem_cons_self c rest)).1
      (h c (List.mem_cons_self c rest)).2 hdisj]
    rw [ih (acc ++ [c]) (fun x hx => h x (List.mem_cons_of_mem c hx))
      (by simpa [List.append_assoc] using hpw)]
    simp

/-- C4 (amended).  For every client whose jar cookies all have non-empty
names and paths and pairwise distinct (name, domain, path) keys,
`save_session` followed by `load_session` on a fresh client reproduces the
username and exactly the original cookie list (hence the same multiset of
(name, value, domain, path) tuples). -/
theorem c4_session_roundtrip (st : ClientStateM)
    (hname : ∀ c ∈ st.cookies, c.name ≠ "")
    (hpath : ∀ c ∈ st.cookies, c.path ≠ "")
    (hkeys : st.cookies.Pairwise cookieKeyNe) :
    loadSession { username := "", cookies := [], authenticated := false }
        (some (saveSession st)) =
      .ok (true,
        { username := st.username, cookies := st.cookies, authenticated := true }) := by
  have hc : jGet
      [("username", JVal.jstr st.username),
       ("cookies", JVal.jarr (st.cookies.map saveCookie))] "cookies"
      (.jarr []) = JVal.jarr (st.cookies.map saveCookie) := rfl
  have hu : pyStr (jGet
      [("username", JVal.jstr st.username),
       ("cookies", JVal.jarr (st.cookies.map saveCookie))] "username"
      (.jstr "")) = st.username := rfl
  unfold loadSession saveSession
  simp only [hc, hu]
  have hjar : (st.cookies.map saveCookie).foldl loadCookieItem [] = st.cookies := by
    have := loadCookies_roundtrip st.cookies []
      (fun c hcc => ⟨hname c hcc, hpath c hcc⟩) (by simpa using hkeys)
    simpa using this
  rw [hjar]
  by_cases hemp : st.username = ""
  · simp [hemp]
  · simp [hemp]

/-- Witness for C4 on a concrete two-cookie jar. -/
theorem c4_session_roundtrip_witness :
    loadSession { username := "", cookies := [], authenticated := false }
        (some (saveSession exGoodJarState)) =
      .ok (true,
        { username := "alice", cookies := exGoodJarState.cookies,
          authenticated := true }) :=
  c4_session_roundtrip exGoodJarState (by decide) (by decide)
    (by constructor <;> simp [cookieKeyNe])

/-- C4 counterexample: a jar holding a cookie with an empty name does not
survive the round trip — the loader skips it, so the cookie multiset is
not reproduced; likewise a cookie with an empty path comes back with path
"/", a different (name, value, domain, path) tuple. -/
theorem c4_roundtrip_counterexample :
    (loadSession { username := "", cookies := [], authenticated := false }
        (some (saveSession exBadJarState)) =
      .ok (true, { username := "u", cookies := [], authenticated := true }) ∧
      exBadJarState.cookies ≠ []) ∧
    (loadSession { username := "", cookies := [], authenticated := false }
        (some (saveSession exEmptyPathState)) =
      .ok (true,
        { username := "u",
          cookies := [{ name := "n", value := "v", domain := "d", path := "/" }],
          authenticated := true }) ∧
      exEmptyPathState.cookies ≠
        [{ name := "n", value := "v", domain := "d", path := "/" }]) := by
  exact ⟨⟨rfl, by decide⟩, ⟨rfl, by decide⟩⟩

/-- C5.  A zero-byte download is rejected with the `empty_file` reason and
never renamed; a download whose sniffed head is an HTML doctype containing
the login-form marker is rejected with the `login_redirect` reason; every
validation failure removes the temporary file, performs no rename, and
returns the reason as a result value rather than raising; only full
validation success renames the temporary file onto the final path. -/
theorem c5_download_validation (content contentType expectedSuffix msg : String) :
    validateDownloadedFile "" contentType expectedSuffix = "empty_file" ∧
    downloadFile (.succeeds "" contentType) expectedSuffix =
      { outcome := .ok { success := false, reason := "empty_file" },
        tmpRemoved := true, renamed := false } ∧
    (content ≠ "" →
      strStarts (strStrip (strLower (strTake content 1024))) "<!doctype html" = true →
      strContains (strTake content 1024) "id_username" = true →
      validateDownloadedFile content contentType expectedSuffix = "login_redirect") ∧
    (∀ problem, validateDownloadedFile content contentType expectedSuffix = problem →
      problem ≠ "" →
      downloadFile (.succeeds content contentType) expectedSuffix =
        { outcome := .ok { success := false, reason := problem },
          tmpRemoved := true, renamed := false }) ∧
    (validateDownloadedFile content contentType expectedSuffix = "" →
      downloadFile (.succeeds content contentType) expectedSuffix =
        { outcome := .ok { success := true, reason := "ok" },
          tmpRemoved := false, renamed := true }) ∧
    downloadFile (.fails msg) expectedSuffix =
      { outcome := .ok { success := false, reason := "download_error: " ++ msg },
        tmpRemoved := true, renamed := false } ∧
    downloadFile .raisesLogin expectedSuffix =
      { outcome := .error (), tmpRemoved := true, renamed := false } := by
  refine ⟨?_, ?_, ?_, ?_, ?_, rfl, rfl⟩
  · unfold validateDownloadedFile
    rw [if_pos rfl]
  · show downloadFile (.succeeds "" contentType) expectedSuffix = _
    unfold downloadFile
    have hv : validateDownloadedFile "" contentType expectedSuffix = "empty_file" := by
      unfold validateDownloadedFile
      rw [if_pos rfl]
    simp [hv]
  · intro hne hdoctype hmarker
    unfold validateDownloadedFile
    rw [if_neg hne]
    have hhtml :
        (strStarts (strStrip (strLower (strTake content 1024))) "<!doctype html" ||
          strStarts (strStrip (strLower (strTake content 1024))) "<html" ||
          strContains (strTake (strStrip (strLower (strTake content 1024))) 500)
            "<head>") = true := by
      rw [hdoctype]
      simp
    simp only [hhtml, if_true]
    rw [if_pos]
    rw [hmarker]
    simp
  · intro problem hv hne
    unfold downloadFile
    dsimp only
    rw [hv, if_pos hne]
  · intro hv
    unfold downloadFile
    dsimp only
    rw [hv]
    simp

/-- Witness for C5: a concrete doctype-plus-login-marker download is
rejected as `login_redirect`, removed, and not renamed. -/
theorem c5_download_validation_witness :
    downloadFile
        (.succeeds "<!DOCTYPE html><form><input id_username></form>" "text/html")
        ".pdf" =
      { outcome := .ok { success := false, reason := "login_redirect" },
        tmpRemoved := true, renamed := false } := by
  have h := c5_download_validation
    "<!DOCTYPE html><form><input id_username></form>" "text/html" ".pdf" ""
  exact h.2.2.2.1 "login_redirect"
    (h.2.2.1 (by decide) (by decide) (by decide)) (by decide)

/-- C6.  The total score stored by `_parse_gradebook_row` is exactly the
value parsed from the row's own precomputed `sum-score` cell (default 0),
independent of the per-task score cells — it is never recomputed by
summing them. -/
theorem c6_total_verbatim (tr : Node) (taskTitles : List String)
    (e : GradebookEntry) (h : parseGradebookRow tr taskTitles = some e) :
    e.total_score = statedTotalOfRow tr := by
  unfold parseGradebookRow at h
  dsimp only at h
  split at h
  · split at h
    · cases h
    · cases h
      unfold statedTotalOfRow
      rfl
  · cases h

/-- Witness for C6: a row whose per-task scores sum to 5 but whose total
cell says 7 keeps the stated total 7. -/
theorem c6_total_verbatim_witness :
    parseGradebookRow exGradebookRow ["t1", "t2"] = some exGradebookEntry ∧
    exGradebookEntry.total_score = statedTotalOfRow exGradebookRow ∧
    sumOfTaskScores exGradebookEntry = 5 ∧
    exGradebookEntry.total_score = 7 := by
  have h2 : (parseFloatQ "2").getD 0 = (2 : Rat) := by
    show (1 : Rat) * ((2 : Nat) : Rat) = 2
    norm_num
  have h3 : (parseFloatQ "3").getD 0 = (3 : Rat) := by
    show (1 : Rat) * ((3 : Nat) : Rat) = 3
    norm_num
  have h7 : (parseFloatQ "7").getD 0 = (7 : Rat) := by
    show (1 : Rat) * ((7 : Nat) : Rat) = 7
    norm_num
  refine ⟨rfl, c6_total_verbatim exGradebookRow ["t1", "t2"] exGradebookEntry rfl,
    ?_, ?_⟩
  · show (parseFloatQ "2").getD 0 + ((parseFloatQ "3").getD 0 + 0) = 5
    rw [h2, h3]
    norm_num
  · show (parseFloatQ "7").getD 0 = 7
    exact h7

/-- Whether a parsed JSON value is a list (`isinstance(x, list)`). -/
def isJArr : JVal → Bool
  | .jarr _ => true
  | _ => false

/-- C7 (amended).  `load_session` returns `false` without raising when the
file is missing, and returns `false` when the file is an object whose
`cookies` value is present but not a list; when the `cookies` lookup
yields a list — including the default empty list used when the field is
missing — it returns `true`. -/
theorem c7_load_session_guards (st : ClientStateM)
    (fields : List (String × JVal)) :
    loadSession st none = .ok (false, st) ∧
    (isJArr (jGet fields "cookies" (.jarr [])) = false →
      loadSession st (some (.jobj fields)) = .ok (false, st)) ∧
    (∀ items, jGet fields "cookies" (.jarr []) = .jarr items →
      ∃ st', loadSession st (some (.jobj fields)) = .ok (true, st')) := by
  refine ⟨rfl, ?_, ?_⟩
  · intro hna
    unfold loadSession
    cases hc : jGet fields "cookies" (.jarr []) <;> simp_all [isJArr]
  · intro items hc
    unfold loadSession
    dsimp only
    rw [hc]
    exact ⟨_, rfl⟩

/-- Witness for C7 at concrete session files. -/
theorem c7_load_session_guards_witness :
    loadSession { username := "", cookies := [], authenticated := false } none =
      .ok (false, { username := "", cookies := [], authenticated := false }) ∧
    loadSession { username := "", cookies := [], authenticated := false }
        (some (.jobj [("cookies", .jstr "zap")])) =
      .ok (false, { username := "", cookies := [], authenticated := false }) :=
  ⟨(c7_load_session_guards { username := "", cookies := [], authenticated := false }
      [("cookies", .jstr "zap")]).1,
    (c7_load_session_guards { username := "", cookies := [], authenticated := false }
      [("cookies", .jstr "zap")]).2.1 (by rfl)⟩

/-- C7 counterexample: a session file with no `cookies` field at all (so
no list-typed `cookies` field) still loads successfully, contradicting the
claim that such a file yields "not loaded". -/
theorem c7_missing_cookies_counterexample :
    loadSession { username := "", cookies := [], authenticated := false }
        (some (.jobj [("username", .jstr "x")])) =
      .ok (true, { username := "x", cookies := [], authenticated := true }) := rfl

/-- The anchor loop of `_extract_urls_from_html` appends exactly the
http-prefixed hrefs in order. -/
theorem anchorFold_eq (l : List Node) :
    ∀ init : List String,
      l.foldl
        (fun urls a =>
          let href := (attrOf a "href").getD ""
          if strStarts href "http" then urls ++ [href] else urls)
        init =
      init ++ ((l.map (fun a => (attrOf a "href").getD "")).filter
        (fun href => strStarts href "http")) := by
  induction l with
  | nil => intro init; simp
  | cons a rest ih =>
    intro init
    simp only [List.foldl_cons, List.map_cons, List.filter_cons]
    by_cases hh : strStarts ((attrOf a "href").getD "") "http"
    · simp only [hh, if_true, ih]
      simp
    · simp only [hh, if_false, ih]
      simp [hh]

/-- The text-URL loop of `_extract_urls_from_html` computes exactly the
spec-side first-occurrence filter appended to its accumulator. -/
theorem dedupFold_eq_dedupAgainst (ms : List String) :
    ∀ init : List String,
      ms.foldl
        (fun urls url => if urls.contains url then urls else urls ++ [url]) init =
        init ++ dedupAgainst init ms := by
  induction ms with
  | nil => intro init; simp [dedupAgainst]
  | cons m rest ih =>
    intro init
    simp only [List.foldl_cons, dedupAgainst]
    by_cases hm : m ∈ init
    · have hc : init.contains m = true := by simpa using hm
      rw [if_pos hc, if_pos hm]
      exact ih init
    · have hc : ¬ init.contains m = true := by simpa using hm
      rw [if_neg hc, if_neg hm]
      rw [ih (init ++ [m])]
      simp

/-- The kept text URLs form a sublist of the match list: they appear in
match order. -/
theorem dedupAgainst_sublist (ms : List String) :
    ∀ seen : List String, List.Sublist (dedupAgainst seen ms) ms := by
  induction ms with
  | nil => intro seen; simp [dedupAgainst]
  | cons m rest ih =>
    intro seen
    simp only [dedupAgainst]
    by_cases hm : m ∈ seen
    · rw [if_pos hm]
      exact (ih seen).cons m
    · rw [if_neg hm]
      exact (ih (seen ++ [m])).cons₂ m

/-- Nothing kept by the first-occurrence filter was already present. -/
theorem dedupAgainst_not_mem_seen (ms : List String) :
    ∀ (seen : List String) (u : String), u ∈ dedupAgainst seen ms → u ∉ seen := by
  induction ms with
  | nil => intro seen u hu; simp [dedupAgainst] at hu
  | cons m rest ih =>
    intro seen u hu
    simp only [dedupAgainst] at hu
    by_cases hm : m ∈ seen
    · rw [if_pos hm] at hu
      exact ih seen u hu
    · rw [if_neg hm] at hu
      rcases List.mem_cons.mp hu with rfl | hur
      · exact hm
      · intro hus
        exact ih (seen ++ [m]) u hur (List.mem_append_left _ hus)

/-- The kept text URLs are duplicate-free. -/
theorem dedupAgainst_nodup (ms : List String) :
    ∀ seen : List String, (dedupAgainst seen ms).Nodup := by
  induction ms with
  | nil => intro seen; simp [dedupAgainst]
  | cons m rest ih =>
    intro seen
    simp only [dedupAgainst]
    by_cases hm : m ∈ seen
    · rw [if_pos hm]
      exact ih seen
    · rw [if_neg hm]
      refine List.nodup_cons.mpr ⟨fun hmem => ?_, ih (seen ++ [m])⟩
      exact dedupAgainst_not_mem_seen rest (seen ++ [m]) m hmem
        (List.mem_append_right _ (List.mem_singleton.mpr rfl))

/-- Every match ends up either among the previously collected URLs or in
the kept text part. -/
theorem dedupAgainst_complete (ms : List String) :
    ∀ (init : List String) (u : String), u ∈ ms → u ∈ init ++ dedupAgainst init ms := by
  induction ms with
  | nil => intro init u hu; simp at hu
  | cons m rest ih =>
    intro init u hu
    simp only [dedupAgainst]
    by_cases hm : m ∈ init
    · rw [if_pos hm]
      rcases List.mem_cons.mp hu with rfl | hur
      · exact List.mem_append_left _ hm
      · exact ih init u hur
    · rw [if_neg hm]
      have hrw : init ++ m :: dedupAgainst (init ++ [m]) rest =
          (init ++ [m]) ++ dedupAgainst (init ++ [m]) rest := by simp
      rw [hrw]
      rcases List.mem_cons.mp hu with rfl | hur
      · exact List.mem_append_left _
          (List.mem_append_right _ (List.mem_singleton.mpr rfl))
      · exact ih (init ++ [m]) u hur

/-- C8 (amended).  The extracted link list is exactly the http-prefixed
anchor hrefs in document order (duplicates among them kept), followed by
the bare URLs matched in the rendered text in match order, each kept only
at its first occurrence and only when not already collected: the text
part equals the spec-side first-occurrence filter, is a sublist of the
match list (hence in match order), is duplicate-free and disjoint from
the anchor hrefs, and every matched text URL appears in the result. -/
theorem c8_link_extraction (content : Node) :
    extractUrlsFromHtml content =
      anchorHttpHrefs content ++
        dedupAgainst (anchorHttpHrefs content) (urlMatches (getText content)) ∧
    List.Sublist
      (dedupAgainst (anchorHttpHrefs content) (urlMatches (getText content)))
      (urlMatches (getText content)) ∧
    (dedupAgainst (anchorHttpHrefs content) (urlMatches (getText content))).Nodup ∧
    (∀ u ∈ dedupAgainst (anchorHttpHrefs content) (urlMatches (getText content)),
      u ∉ anchorHttpHrefs content) ∧
    (∀ u ∈ urlMatches (getText content), u ∈ extractUrlsFromHtml content) := by
  have hmain : extractUrlsFromHtml content =
      anchorHttpHrefs content ++
        dedupAgainst (anchorHttpHrefs content) (urlMatches (getText content)) := by
    unfold extractUrlsFromHtml
    rw [anchorFold_eq, dedupFold_eq_dedupAgainst]
    simp [anchorHttpHrefs]
  refine ⟨hmain, dedupAgainst_sublist _ _, dedupAgainst_nodup _ _, ?_, ?_⟩
  · intro u hu
    exact dedupAgainst_not_mem_seen _ _ u hu
  · intro u hu
    rw [hmain]
    exact dedupAgainst_complete _ _ u hu

/-- Witness for C8: the bare text URL of a mixed fragment is extracted. -/
theorem c8_link_extraction_witness :
    "http://b/2" ∈ extractUrlsFromHtml exMixedLinkNode :=
  (c8_link_extraction exMixedLinkNode).2.2.2.2 "http://b/2" (by decide)

/-- C8 counterexample: two anchors with the same href yield the href twice
— anchor hrefs are not de-duplicated, contradicting "each URL appears at
most once in the result". -/
theorem c8_duplicate_counterexample :
    extractUrlsFromHtml exDupLinkNode = ["http://x", "http://x"] := by decide

/-- C9 (amended).  `remove_course_id c` drops the queue and gradebook
cache entries of `c` together and leaves every other course id untouched
in both caches; the fetch completions only insert (they never empty an
occupied slot and never touch the other cache); `action_logout` is the
one further operation removing cache entries, and it clears both caches
entirely. -/
theorem c9_cache_removal {Q G : Type} (st : AppState Q G) (c k : Nat) :
    (removeCourseId st c).queue_cache c = none ∧
    (removeCourseId st c).gradebook_cache c = none ∧
    (k ≠ c →
      (removeCourseId st c).queue_cache k = st.queue_cache k ∧
      (removeCourseId st c).gradebook_cache k = st.gradebook_cache k) ∧
    (∀ q : Q,
      (queueFetchDone st c q).gradebook_cache k = st.gradebook_cache k ∧
      ((queueFetchDone st c q).queue_cache k = none → st.queue_cache k = none)) ∧
    (∀ g : G,
      (gradebookFetchDone st c g).queue_cache k = st.queue_cache k ∧
      ((gradebookFetchDone st c g).gradebook_cache k = none →
        st.gradebook_cache k = none)) ∧
    (actionLogout st).queue_cache k = none ∧
    (actionLogout st).gradebook_cache k = none := by
  refine ⟨by simp [removeCourseId], by simp [removeCourseId], ?_, ?_, ?_, rfl, rfl⟩
  · intro hk
    exact ⟨by simp [removeCourseId, hk], by simp [removeCourseId, hk]⟩
  · intro q
    refine ⟨rfl, ?_⟩
    by_cases hk : k = c
    · subst hk
      simp [queueFetchDone]
    · simp [queueFetchDone, hk]
  · intro g
    refine ⟨rfl, ?_⟩
    by_cases hk : k = c
    · subst hk
      simp [gradebookFetchDone]
    · simp [gradebookFetchDone, hk]

/-- Witness for C9: removing course 2 keeps the cached queue of course 1
and empties the slot of course 2. -/
theorem c9_cache_removal_witness :
    (removeCourseId exAppState 2).queue_cache 1 = some 7 ∧
    (removeCourseId exAppState 2).queue_cache 2 = none := by
  have h := c9_cache_removal exAppState 2 1
  exact ⟨((h.2.2.1 (by decide)).1).trans rfl, h.1⟩

/-- C9 counterexample: `action_logout` also removes cache entries — it
clears both caches — so course removal is not the only operation that does. -/
theorem c9_logout_counterexample :
    (actionLogout exAppState).queue_cache 1 = none ∧
    exAppState.queue_cache 1 = some 7 ∧
    (actionLogout exAppState).gradebook_cache 1 = none ∧
    exAppState.gradebook_cache 1 = some 9 :=
  ⟨rfl, rfl, rfl, rfl⟩

/-- C10.  If `load_session` returns (with either outcome), a client whose
username was non-empty beforehand keeps it; the username can only have
changed when the client username was empty at load time. -/
theorem c10_username_adoption (st : ClientStateM) (file : Option JVal) (b : Bool)
    (st' : ClientStateM) (h : loadSession st file = .ok (b, st')) :
    (st.username ≠ "" → st'.username = st.username) ∧
    (st'.username ≠ st.username → st.username = "") := by
  cases file with
  | none =>
    unfold loadSession at h
    simp only [Except.ok.injEq, Prod.mk.injEq] at h
    rw [← h.2]
    exact ⟨fun _ => rfl, fun hne => absurd rfl hne⟩
  | some raw =>
    cases raw with
    | jobj fields =>
      unfold loadSession at h
      dsimp only at h
      split at h
      · simp only [Except.ok.injEq, Prod.mk.injEq] at h
        rw [← h.2]
        by_cases hcond :
          st.username = "" ∧ ¬ pyStr (jGet fields "username" (.jstr "")) = ""
        · rw [if_pos hcond]
          exact ⟨fun hne => absurd hcond.1 hne, fun _ => hcond.1⟩
        · rw [if_neg hcond]
          exact ⟨fun _ => rfl, fun hne => absurd rfl hne⟩
      · simp only [Except.ok.injEq, Prod.mk.injEq] at h
        rw [← h.2]
        exact ⟨fun _ => rfl, fun hne => absurd rfl hne⟩
    | jnull => exact absurd h (by simp [loadSession])
    | jbool bb => exact absurd h (by simp [loadSession])
    | jnum n => exact absurd h (by simp [loadSession])
    | jstr s => exact absurd h (by simp [loadSession])
    | jarr xs => exact absurd h (by simp [loadSession])

/-- Witness for C10: a client that already has a username keeps it when a
session file carrying a different username is loaded. -/
theorem c10_username_adoption_witness :
    loadSession { username := "u", cookies := [], authenticated := false }
        (some (.jobj [("username", .jstr "saved"), ("cookies", .jarr [])])) =
      .ok (true, { username := "u", cookies := [], authenticated := true }) ∧
    ({ username := "u", cookies := [], authenticated := true } : ClientStateM).username =
      ({ username := "u", cookies := [], authenticated := false } : ClientStateM).username := by
  refine ⟨rfl, ?_⟩
  exact (c10_username_adoption
    { username := "u", cookies := [], authenticated := false }
    (some (.jobj [("username", .jstr "saved"), ("cookies", .jarr [])])) true
    { username := "u", cookies := [], authenticated := true } rfl).1 (by decide)

end Anytask
